import Mathlib

/-!
# Verification of the OpenAI → NVIDIA NIM proxy (`server.js`)

Shallow embedding of the proxy's core logic:

* `getOptimalModel` — model-name resolution with a static table, a bounded
  FIFO fallback cache (`validatedModels`), and heuristic classification;
* the request handler for `POST /v1/chat/completions` — validation of the
  `messages` field and construction of the backend (`nimRequest`) body;
* the streaming transcoder — the `response.data.on('data')` line handler,
  including the `[DONE]` short-circuit, the JSON-parse failure path, and the
  reasoning/content merge state machine (`SHOW_REASONING` branch);
* the non-streaming response assembler (`openaiResponse.choices` map).

JavaScript truthiness on the values that matter here (strings, numbers,
and absent fields) is modelled explicitly: an absent field is `Option.none`,
the empty string and the number `0` are falsy.
-/

set_option autoImplicit false

namespace NimProxy

/-- JS truthiness of an optional string field: present and nonempty. -/
def truthyStr (o : Option String) : Bool :=
  match o with
  | some s => s ≠ ""
  | none => false

/-- `x || d` for an optional string: the string when truthy, else `d`. -/
def jsOrStr (o : Option String) (d : String) : String :=
  match o with
  | some s => if s ≠ "" then s else d
  | none => d

/-- `x || d` for an optional number (modelled as `ℚ`): the number when
truthy (nonzero), else `d`. -/
def jsOrNum (o : Option ℚ) (d : ℚ) : ℚ :=
  match o with
  | some q => if q ≠ 0 then q else d
  | none => d

/-- ASCII lower-casing of one character (the behaviour of JS
`toLowerCase` on the ASCII model-name alphabet used here). -/
def charLower (c : Char) : Char :=
  if 65 ≤ c.toNat ∧ c.toNat ≤ 90 then Char.ofNat (c.toNat + 32) else c

/-- JS `s.toLowerCase()` on ASCII strings. -/
def strToLower (s : String) : String := ⟨s.data.map charLower⟩

/-- `t` is a prefix of `s` (on character lists). -/
def listIsPrefixOf : List Char → List Char → Bool
  | [], _ => true
  | _ :: _, [] => false
  | a :: as, b :: bs => a = b && listIsPrefixOf as bs

/-- `t` occurs as a contiguous substring of `s` (on character lists). -/
def listContainsSub (s t : List Char) : Bool :=
  if listIsPrefixOf t s then true
  else
    match s with
    | [] => false
    | _ :: rest => listContainsSub rest t

/-- JS `s.includes(t)`: `t` occurs as a substring of `s`. -/
def jsIncludes (s t : String) : Bool := listContainsSub s.data t.data

/-- JS `s.startsWith(p)`. -/
def strStartsWith (s p : String) : Bool := listIsPrefixOf p.data s.data

/-- JS `s.slice(n)` for a nonnegative `n`: drop the first `n` characters. -/
def strDrop (s : String) (n : Nat) : String := ⟨s.data.drop n⟩

/-! ## Configuration constants (server.js lines 25-28) -/

def SHOW_REASONING : Bool := false
def ENABLE_THINKING_MODE : Bool := false
def MAX_CACHE_SIZE : Nat := 100
def FORCE_STREAMING : Bool := true

/-! ## Model resolution (server.js lines 34-42, 72-101) -/

/-- The static `MODEL_MAPPING` table (server.js lines 34-42), in source
order. -/
def MODEL_MAPPING : List (String × String) :=
  [ ("gpt-3.5-turbo", "nvidia/llama-3.1-nemotron-ultra-253b-v1"),
    ("gpt-4", "qwen/qwen3-coder-480b-a35b-instruct"),
    ("gpt-4-turbo", "moonshotai/kimi-k2-instruct-0905"),
    ("gpt-4o", "deepseek-ai/deepseek-v3.1"),
    ("claude-3-opus", "openai/gpt-oss-120b"),
    ("claude-3-sonnet", "openai/gpt-oss-20b"),
    ("gemini-pro", "qwen/qwen3-next-80b-a3b-thinking") ]

/-- The `validatedModels` JS `Map`, modelled as an association list in
insertion order, oldest entry first (a JS `Map` iterates in insertion
order, so `keys().next().value` is the head). -/
abbrev Cache := List (String × String)

/-- First-match association lookup (JS `Map.get` / object index; keys are
unique under the insertion discipline of `getOptimalModel`). -/
def cacheLookup (c : Cache) (k : String) : Option String :=
  match c with
  | [] => none
  | (k', v) :: rest => if k' = k then some v else cacheLookup rest k

/-- `MODEL_MAPPING[requestedModel]` (server.js line 73). -/
def mappingLookup (k : String) : Option String :=
  cacheLookup MODEL_MAPPING k

/-- The heuristic fallback classification of `getOptimalModel`
(server.js lines 81-92): case-insensitive substring tests, in source
precedence order. -/
def classifyFallback (requestedModel : String) : String :=
  let modelLower := strToLower requestedModel
  if jsIncludes modelLower "deepseek" then
    "deepseek-ai/deepseek-v3.1"
  else if jsIncludes modelLower "gpt-4" || jsIncludes modelLower "claude-opus"
      || jsIncludes modelLower "405b" then
    "meta/llama-3.1-405b-instruct"
  else if jsIncludes modelLower "claude" || jsIncludes modelLower "gemini"
      || jsIncludes modelLower "70b" then
    "meta/llama-3.1-70b-instruct"
  else
    "deepseek-ai/deepseek-v3.1"

/-- `getOptimalModel` (server.js lines 72-101), with the cache bound as a
parameter (`MAX_CACHE_SIZE` in the source). Returns the chosen backend
model together with the updated `validatedModels` cache. On a miss of both
the static table and the cache, the heuristic fallback is computed; if the
cache has reached the bound the oldest entry (list head) is deleted, then
the new entry is appended (insertion order). -/
def getOptimalModelB (bound : Nat) (requestedModel : String) (cache : Cache) :
    String × Cache :=
  match mappingLookup requestedModel with
  | some v => (v, cache)
  | none =>
    match cacheLookup cache requestedModel with
    | some v => (v, cache)
    | none =>
      let fallbackModel := classifyFallback requestedModel
      let cache' := if bound ≤ cache.length then cache.tail else cache
      (fallbackModel, cache' ++ [(requestedModel, fallbackModel)])

/-- `getOptimalModel` at the configured bound `MAX_CACHE_SIZE`. -/
def getOptimalModel (requestedModel : String) (cache : Cache) : String × Cache :=
  getOptimalModelB MAX_CACHE_SIZE requestedModel cache

/-! ## The chat-completions handler: validation and request translation
(server.js lines 104-137) -/

/-- A minimal JSON value, used where the handler inspects a field's
dynamic type (the `messages` field may be anything). -/
inductive JVal where
  | jnull : JVal
  | jbool : Bool → JVal
  | jnum : ℚ → JVal
  | jstr : String → JVal
  | jarr : List JVal → JVal
  | jobj : List (String × JVal) → JVal
deriving Repr

/-- JS truthiness of a JSON value: `null`, `false`, `0`, `""` are falsy;
arrays and objects are always truthy. -/
def JVal.truthy : JVal → Bool
  | .jnull => false
  | .jbool b => b
  | .jnum q => q ≠ 0
  | .jstr s => s ≠ ""
  | .jarr _ => true
  | .jobj _ => true

/-- `Array.isArray`. -/
def JVal.isArray : JVal → Bool
  | .jarr _ => true
  | _ => false

/-- The destructured inbound request body (server.js line 106):
`{ model, messages, temperature, max_tokens, stream }`; absent fields are
`none`. -/
structure ChatRequest where
  model : Option String
  messages : Option JVal
  temperature : Option ℚ
  max_tokens : Option ℚ
  stream : Option Bool
deriving Repr

/-- The error envelope of a validation failure (server.js lines 110-116). -/
structure ErrResp where
  status : Nat
  message : String
  errType : String
  code : Nat
deriving Repr, DecidableEq

/-- The backend request body `nimRequest` (server.js lines 127-133). -/
structure BackendRequest where
  model : String
  messages : JVal
  temperature : ℚ
  max_tokens : ℚ
  stream : Bool
deriving Repr

/-- The `messages` validation test (server.js line 109):
`!messages || !Array.isArray(messages) || messages.length === 0`. -/
def messagesInvalid (messages : Option JVal) : Bool :=
  match messages with
  | none => true
  | some v => !v.truthy || !v.isArray ||
      (match v with | .jarr l => l.length = 0 | _ => false)

/-- The pre-backend phase of the `POST /v1/chat/completions` handler
(server.js lines 106-133): validates `messages`, resolves the model
(`model || 'gpt-4o'`), and builds `nimRequest` with defaults
`temperature || 0.6`, `max_tokens || 2048`, and
`stream: FORCE_STREAMING || stream`. Returns the validation error or the
backend request, together with the (possibly updated) fallback cache. -/
def handleChatRequest (req : ChatRequest) (cache : Cache) :
    Except ErrResp BackendRequest × Cache :=
  if messagesInvalid req.messages then
    (.error ⟨400, "messages field is required and must be a non-empty array",
             "invalid_request_error", 400⟩,
     cache)
  else
    let msgs := req.messages.getD .jnull
    let (nimModel, cache') := getOptimalModel (jsOrStr req.model "gpt-4o") cache
    let useStreaming := FORCE_STREAMING || req.stream.getD false
    (.ok { model := nimModel,
           messages := msgs,
           temperature := jsOrNum req.temperature 0.6,
           max_tokens := jsOrNum req.max_tokens 2048,
           stream := useStreaming },
     cache')

/-! ## The streaming transcoder (server.js lines 164-224) -/

/-- One choice delta of a backend stream event:
`choices[i].delta.{content, reasoning_content}`. An absent field is
`none`; a present `""` is `some ""` (falsy in JS). -/
structure Delta where
  content : Option String
  reasoning_content : Option String
deriving Repr, DecidableEq

/-- One choice of a backend stream event; `delta` may be absent. -/
structure Choice where
  delta : Option Delta
deriving Repr, DecidableEq

/-- A parsed backend stream event (`data` in the source): its list of
choices (other fields pass through unmodified and are not modelled). -/
structure Event where
  choices : List Choice
deriving Repr, DecidableEq

/-- The `SHOW_REASONING` merge branch for one delta (server.js lines
191-211): pre-state `reasoningStarted`, the delta, and the resulting
state and outgoing delta. The `combinedContent` string is built exactly
as in the source; the delta is rewritten (content set, reasoning deleted)
only when `combinedContent` is nonempty. -/
def processDeltaMerge (reasoningStarted : Bool) (d : Delta) : Bool × Delta :=
  let reasoning := d.reasoning_content
  let content := d.content
  let s1 :=
    if truthyStr reasoning && !reasoningStarted then
      ("<think>\n" ++ reasoning.getD "", true)
    else if truthyStr reasoning then
      (reasoning.getD "", reasoningStarted)
    else
      ("", reasoningStarted)
  let s2 :=
    if truthyStr content && s1.2 then
      (s1.1 ++ "</think>\n\n" ++ content.getD "", false)
    else if truthyStr content then
      (s1.1 ++ content.getD "", s1.2)
    else
      s1
  if s2.1 ≠ "" then
    (s2.2, { content := some s2.1, reasoning_content := none })
  else
    (s2.2, d)

/-- The pass-through branch for one delta (server.js lines 212-215):
`delta.content = content || ''` and `delete delta.reasoning_content`. -/
def processDeltaPass (d : Delta) : Delta :=
  { content := some (if truthyStr d.content then d.content.getD "" else ""),
    reasoning_content := none }

/-- Processing of one parsed event (server.js lines 187-216): only
`choices[0].delta` is inspected and rewritten (when present); all other
choices, and a first choice without a delta, pass through unmodified. -/
def processEvent (showReasoning reasoningStarted : Bool) (e : Event) :
    Bool × Event :=
  match e.choices with
  | [] => (reasoningStarted, e)
  | ch :: rest =>
    match ch.delta with
    | none => (reasoningStarted, e)
    | some d =>
      if showReasoning then
        let (st', d') := processDeltaMerge reasoningStarted d
        (st', ⟨{ delta := some d' } :: rest⟩)
      else
        (reasoningStarted, ⟨{ delta := some (processDeltaPass d) } :: rest⟩)

/-- Concatenation of the `content` fragments emitted for a delta
sequence in merge mode, threading `reasoningStarted` through
`processDeltaMerge` (an unmodified delta contributes its original
content, or nothing when absent). -/
def mergeConcat (reasoningStarted : Bool) : List Delta → String
  | [] => ""
  | d :: ds =>
    let (st', d') := processDeltaMerge reasoningStarted d
    (d'.content.getD "") ++ mergeConcat st' ds

/-- A delta carrying only a reasoning fragment. -/
def rDelta (s : String) : Delta := { content := none, reasoning_content := some s }

/-- A delta carrying only a visible-content fragment. -/
def cDelta (s : String) : Delta := { content := some s, reasoning_content := none }

/-- Processing of one line of the backend stream (server.js lines
179-222), parameterised by the platform's JSON parse and serialise
functions (`JSON.parse` on the payload after the 6-character `data: `
prefix, `JSON.stringify` on the rewritten event). Returns the new
`reasoningStarted` state and the strings written to the response:

* a non-`data: ` line is ignored;
* a `data: ` line containing `[DONE]` anywhere is written back verbatim
  followed by a blank line, unparsed;
* a payload that parses is transcoded and re-serialised;
* a payload that fails to parse is written back as the original line plus
  a newline, and the state is unchanged (the `catch` block). -/
def processLine (parse : String → Option Event) (stringify : Event → String)
    (showReasoning reasoningStarted : Bool) (line : String) :
    Bool × List String :=
  if strStartsWith line "data: " then
    if jsIncludes line "[DONE]" then
      (reasoningStarted, [line ++ "\n\n"])
    else
      match parse (strDrop line 6) with
      | some data =>
        let (st', e') := processEvent showReasoning reasoningStarted data
        (st', ["data: " ++ stringify e' ++ "\n\n"])
      | none => (reasoningStarted, [line ++ "\n"])
  else
    (reasoningStarted, [])

/-- Processing of a sequence of complete lines (the `lines.forEach` of
server.js line 178), threading the merge state and collecting all writes
in order. -/
def processLines (parse : String → Option Event) (stringify : Event → String)
    (showReasoning : Bool) (reasoningStarted : Bool) :
    List String → Bool × List String
  | [] => (reasoningStarted, [])
  | l :: ls =>
    let (st', out) := processLine parse stringify showReasoning reasoningStarted l
    let (st'', outs) := processLines parse stringify showReasoning st' ls
    (st'', out ++ outs)

/-! ## The non-streaming response assembler (server.js lines 254-269) -/

/-- A backend choice's `message` on the non-streaming path. -/
structure RespMessage where
  role : String
  content : Option String
  reasoning_content : Option String
deriving Repr, DecidableEq

/-- The assembled visible content of one non-streaming choice
(server.js lines 255-259): `choice.message?.content || ''`, and when
`SHOW_REASONING` holds and `reasoning_content` is truthy, it is prefixed
as `'<think>\n' + reasoning_content + '\n</think>\n\n' + fullContent`. -/
def assembleContent (showReasoning : Bool) (msg : RespMessage) : String :=
  let fullContent := if truthyStr msg.content then msg.content.getD "" else ""
  if showReasoning && truthyStr msg.reasoning_content then
    "<think>\n" ++ msg.reasoning_content.getD "" ++ "\n</think>\n\n" ++ fullContent
  else
    fullContent

/-- Concatenation of a list of strings in order. -/
def concatList : List String → String
  | [] => ""
  | s :: ss => s ++ concatList ss

/-- The property C2 asserts of every emitted event: no choice's delta
carries a `reasoning_content` field. -/
def noRawReasoning (e : Event) : Bool :=
  e.choices.all fun ch =>
    match ch.delta with
    | some d => d.reasoning_content.isNone
    | none => true

/-- An event with two choices whose second choice's delta carries a
reasoning fragment. -/
def leakEvent : Event :=
  ⟨[⟨some ⟨some "hi", none⟩⟩, ⟨some ⟨none, some "secret"⟩⟩]⟩

/-- A concrete valid request used to witness `translation_defaults`. -/
def reqW : ChatRequest :=
  ⟨some "gpt-4o", some (.jarr [.jobj []]), some 2, none, some false⟩

/-- The backend request the handler builds from `reqW`. -/
def bW : BackendRequest :=
  { model := "deepseek-ai/deepseek-v3.1", messages := .jarr [.jobj []],
    temperature := 2, max_tokens := 2048, stream := true }

/-- A backend data line that is a syntactically well-formed JSON event
whose reasoning text contains the sentinel `[DONE]` as a substring. -/
def doneLeakLine : String :=
  "data: \x7b\"choices\":[\x7b\"delta\":\x7b\"reasoning_content\":\"x [DONE] y\"\x7d\x7d]\x7d"

/-- The number of (possibly overlapping) occurrences of `t` in `s`
(on character lists); used to count marker emissions. -/
def countSubList : List Char → List Char → Nat
  | [], _ => 0
  | a :: rest, t =>
    (if listIsPrefixOf t (a :: rest) then 1 else 0) + countSubList rest t

/-- Occurrences of the substring `t` in `s`. -/
def countSubStr (s t : String) : Nat := countSubList s.data t.data

/-! ## Helper lemmas -/

theorem cacheLookup_tail_none {c : Cache} {k : String}
    (h : cacheLookup c k = none) : cacheLookup c.tail k = none := by
  cases c with
  | nil => rfl
  | cons p rest =>
    obtain ⟨k', v⟩ := p
    by_cases hk : k' = k
    · simp [cacheLookup, hk] at h
    · simpa [cacheLookup, hk] using h

theorem cacheLookup_append_self {c : Cache} {k v : String}
    (h : cacheLookup c k = none) :
    cacheLookup (c ++ [(k, v)]) k = some v := by
  induction c with
  | nil => simp [cacheLookup]
  | cons p rest ih =>
    obtain ⟨k', v'⟩ := p
    by_cases hk : k' = k
    · simp [cacheLookup, hk] at h
    · rw [List.cons_append]
      simp only [cacheLookup, hk, if_false] at h ⊢
      exact ih h

theorem str_append_ne_empty_left (a b : String) (ha : a ≠ "") :
    a ++ b ≠ "" := by
  intro h
  apply ha
  apply String.ext
  have hd := congrArg String.data h
  rw [String.data_append] at hd
  exact (List.append_eq_nil.mp hd).1

theorem str_append_ne_empty_right (a b : String) (hb : b ≠ "") :
    a ++ b ≠ "" := by
  intro h
  apply hb
  apply String.ext
  have hd := congrArg String.data h
  rw [String.data_append] at hd
  exact (List.append_eq_nil.mp hd).2

/-! ## C3: bounded FIFO cache -/

theorem getOptimalModelB_length_le (bound : Nat) (m : String) (cache : Cache)
    (hb : 0 < bound) (hle : cache.length ≤ bound) :
    (getOptimalModelB bound m cache).2.length ≤ bound := by
  unfold getOptimalModelB
  cases hm : mappingLookup m with
  | some v => simpa using hle
  | none =>
    cases hc : cacheLookup cache m with
    | some v => simpa using hle
    | none =>
      by_cases hfull : bound ≤ cache.length
      · simp only [hfull, if_true, List.length_append, List.length_cons,
          List.length_nil]
        cases cache with
        | nil => simpa using hb
        | cons hd tl => simp at hle ⊢; omega
      · simp only [hfull, if_false, List.length_append, List.length_cons,
          List.length_nil]
        omega

theorem getOptimalModelB_evicts_oldest (bound : Nat) (m : String)
    (cache : Cache) (hmap : mappingLookup m = none)
    (hmiss : cacheLookup cache m = none) (hfull : cache.length = bound) :
    (getOptimalModelB bound m cache).2
      = cache.tail ++ [(m, classifyFallback m)] := by
  unfold getOptimalModelB
  rw [hmap, hmiss]
  simp [hfull.ge]

/-- C3: the fallback cache never exceeds its configured bound; when a
resolve of an unseen name (neither in the static table nor cached) finds
the cache at the bound, exactly the oldest (first-inserted) entry is
evicted and all remaining entries are kept in order, with the new entry
appended; the configured bound is 100; with bound 2, inserting a third
distinct unseen name evicts the first. -/
theorem cache_bound_fifo_eviction (bound : Nat) (m : String) (cache : Cache)
    (hb : 0 < bound) (hle : cache.length ≤ bound) :
    (getOptimalModelB bound m cache).2.length ≤ bound ∧
    (mappingLookup m = none → cacheLookup cache m = none →
      cache.length = bound →
      (getOptimalModelB bound m cache).2
        = cache.tail ++ [(m, classifyFallback m)]) ∧
    MAX_CACHE_SIZE = 100 ∧
    (getOptimalModelB 2 "modelthree"
        ((getOptimalModelB 2 "modeltwo"
          ((getOptimalModelB 2 "modelone" []).2)).2)).2
      = [("modeltwo", "deepseek-ai/deepseek-v3.1"),
         ("modelthree", "deepseek-ai/deepseek-v3.1")] := by
  refine ⟨getOptimalModelB_length_le bound m cache hb hle,
    fun hmap hmiss hfull =>
      getOptimalModelB_evicts_oldest bound m cache hmap hmiss hfull,
    rfl, by decide⟩

theorem cache_bound_fifo_eviction_witness :
    (getOptimalModelB 2 "modelthree"
        ((getOptimalModelB 2 "modeltwo"
          ((getOptimalModelB 2 "modelone" []).2)).2)).2
      = [("modeltwo", "deepseek-ai/deepseek-v3.1"),
         ("modelthree", "deepseek-ai/deepseek-v3.1")] :=
  (cache_bound_fifo_eviction 2 "modelone" [] (by decide) (by decide)).2.2.2

/-! ## C7: heuristic classification and cached re-resolution -/

theorem getOptimalModel_idem (m : String) (cache : Cache)
    (hmap : mappingLookup m = none) :
    getOptimalModel m (getOptimalModel m cache).2
      = getOptimalModel m cache := by
  unfold getOptimalModel getOptimalModelB
  rw [hmap]
  cases hc : cacheLookup cache m with
  | some v => simp [hc]
  | none =>
    simp only []
    by_cases hfull : MAX_CACHE_SIZE ≤ cache.length
    · rw [if_pos hfull,
        cacheLookup_append_self (cacheLookup_tail_none hc)]
    · rw [if_neg hfull, cacheLookup_append_self hc]

/-- C7: for a name outside the static table, the heuristic fallback is a
deterministic function of the lower-cased name with the source's
precedence — `deepseek` first, then `gpt-4`/`claude-opus`/`405b` (large),
then `claude`/`gemini`/`70b` (medium), else the default bucket — and an
immediately repeated resolve of the same unseen name returns the
identical value from the cache, leaving the cache unchanged. -/
theorem heuristic_buckets_and_cached_reresolve (m : String) :
    (jsIncludes (strToLower m) "deepseek" = true →
      classifyFallback m = "deepseek-ai/deepseek-v3.1") ∧
    (jsIncludes (strToLower m) "deepseek" = false →
      (jsIncludes (strToLower m) "gpt-4" || jsIncludes (strToLower m) "claude-opus"
        || jsIncludes (strToLower m) "405b") = true →
      classifyFallback m = "meta/llama-3.1-405b-instruct") ∧
    (jsIncludes (strToLower m) "deepseek" = false →
      (jsIncludes (strToLower m) "gpt-4" || jsIncludes (strToLower m) "claude-opus"
        || jsIncludes (strToLower m) "405b") = false →
      (jsIncludes (strToLower m) "claude" || jsIncludes (strToLower m) "gemini"
        || jsIncludes (strToLower m) "70b") = true →
      classifyFallback m = "meta/llama-3.1-70b-instruct") ∧
    (jsIncludes (strToLower m) "deepseek" = false →
      (jsIncludes (strToLower m) "gpt-4" || jsIncludes (strToLower m) "claude-opus"
        || jsIncludes (strToLower m) "405b") = false →
      (jsIncludes (strToLower m) "claude" || jsIncludes (strToLower m) "gemini"
        || jsIncludes (strToLower m) "70b") = false →
      classifyFallback m = "deepseek-ai/deepseek-v3.1") ∧
    (mappingLookup m = none → ∀ cache : Cache,
      getOptimalModel m (getOptimalModel m cache).2
        = getOptimalModel m cache) := by
  refine ⟨fun h1 => ?_, fun h1 h2 => ?_, fun h1 h2 h3 => ?_,
    fun h1 h2 h3 => ?_, fun hmap cache => getOptimalModel_idem m cache hmap⟩
  · simp only [classifyFallback]
    rw [h1]
    rfl
  · simp only [classifyFallback]
    rw [h1, h2]
    rfl
  · simp only [classifyFallback]
    rw [h1, h2, h3]
    rfl
  · simp only [classifyFallback]
    rw [h1, h2, h3]
    rfl

theorem heuristic_buckets_witness :
    classifyFallback "Claude-Opus-Custom" = "meta/llama-3.1-405b-instruct" :=
  (heuristic_buckets_and_cached_reresolve "Claude-Opus-Custom").2.1
    (by decide) (by decide)

/-! ## C10: omitted model field resolves via the static table -/

/-- C10: when the caller omits `model`, the handler resolves
`'gpt-4o'` (the `model || 'gpt-4o'` default), the static table maps it to
`deepseek-ai/deepseek-v3.1`, and the fallback cache is left unchanged —
for every cache state, so the cache is neither consulted for the result
nor written. -/
theorem omitted_model_uses_static_default (req : ChatRequest) (cache : Cache)
    (hm : req.model = none) :
    (handleChatRequest req cache).2 = cache ∧
    (∀ b, (handleChatRequest req cache).1 = .ok b →
      b.model = "deepseek-ai/deepseek-v3.1") ∧
    getOptimalModel (jsOrStr req.model "gpt-4o") cache
      = ("deepseek-ai/deepseek-v3.1", cache) := by
  have hres : getOptimalModel (jsOrStr req.model "gpt-4o") cache
      = ("deepseek-ai/deepseek-v3.1", cache) := by
    rw [hm]
    show getOptimalModelB MAX_CACHE_SIZE "gpt-4o" cache = _
    unfold getOptimalModelB
    rw [show mappingLookup "gpt-4o" = some "deepseek-ai/deepseek-v3.1" by decide]
  refine ⟨?_, ?_, hres⟩
  · unfold handleChatRequest
    by_cases hmsg : messagesInvalid req.messages
    · simp [hmsg]
    · simp [hmsg, hres]
  · intro b hb
    unfold handleChatRequest at hb
    by_cases hmsg : messagesInvalid req.messages
    · simp [hmsg] at hb
    · simp [hmsg, hres] at hb
      rw [← hb]

theorem omitted_model_uses_static_default_witness :
    getOptimalModel (jsOrStr (none : Option String) "gpt-4o") []
      = ("deepseek-ai/deepseek-v3.1", []) :=
  (omitted_model_uses_static_default
    ⟨none, some (.jarr [.jobj []]), none, none, none⟩ [] rfl).2.2

/-! ## C6: messages validation -/

/-- C6: a request whose `messages` field is missing, not an array, or an
empty array is answered with status 400 and an `invalid_request_error`
envelope, and the handler stops before any backend request is built (the
fallback cache is also untouched). -/
theorem invalid_messages_rejected (req : ChatRequest) (cache : Cache)
    (h : req.messages = none ∨
      (∃ v, req.messages = some v ∧ v.isArray = false) ∨
      req.messages = some (.jarr [])) :
    (handleChatRequest req cache).1
      = .error ⟨400, "messages field is required and must be a non-empty array",
                "invalid_request_error", 400⟩ ∧
    (handleChatRequest req cache).2 = cache := by
  have hinv : messagesInvalid req.messages = true := by
    rcases h with h | ⟨v, hv, ha⟩ | h
    · rw [h]; rfl
    · rw [hv]
      cases v <;> simp_all [messagesInvalid, JVal.isArray, JVal.truthy]
    · rw [h]; rfl
  unfold handleChatRequest
  rw [hinv]
  exact ⟨rfl, rfl⟩

theorem invalid_messages_rejected_witness :
    (handleChatRequest ⟨some "gpt-4", none, none, none, none⟩ []).1
      = .error ⟨400, "messages field is required and must be a non-empty array",
                "invalid_request_error", 400⟩ :=
  (invalid_messages_rejected ⟨some "gpt-4", none, none, none, none⟩ []
    (Or.inl rfl)).1

/-! ## C4: request translation defaults -/

/-- C4 counterexample: a valid request with `temperature: 0` and
`max_tokens: 0` — both fields present — is translated with
`temperature 0.6` and `max_tokens 2048`, because `temperature || 0.6`
and `max_tokens || 2048` treat the present value `0` as absent (JS `||`
on a falsy number). This refutes "temperature equal to the caller's
temperature when that field is present" (and likewise for max_tokens). -/
theorem translation_zero_fields_counterexample :
    ((handleChatRequest
        ⟨some "gpt-4o", some (.jarr [.jobj []]), some 0, some 0, some false⟩
        []).1.map BackendRequest.temperature = .ok 0.6 ∧
      (handleChatRequest
        ⟨some "gpt-4o", some (.jarr [.jobj []]), some 0, some 0, some false⟩
        []).1.map BackendRequest.max_tokens = .ok 2048) ∧
    (0.6 : ℚ) ≠ 0 ∧ (2048 : ℚ) ≠ 0 := by
  refine ⟨⟨?_, ?_⟩, by norm_num, by norm_num⟩ <;>
  · show Except.map _ ((handleChatRequest ⟨_, _, _, _, _⟩ []).1) = _
    unfold handleChatRequest
    rw [show messagesInvalid (some (.jarr [.jobj []])) = false from rfl]
    simp [jsOrNum, Except.map]

/-- C4 (amended): for every valid request, the translated backend request
has temperature equal to the caller's temperature when that field is
present *and nonzero*, and 0.6 when it is absent *or zero* (the `||`
default); max_tokens equal to the caller's max_tokens when present and
nonzero, and 2048 when absent or zero; and stream is always true under the
forced-streaming policy. -/
theorem translation_defaults (req : ChatRequest) (cache : Cache)
    (b : BackendRequest) (hok : (handleChatRequest req cache).1 = .ok b) :
    (∀ q : ℚ, req.temperature = some q → q ≠ 0 → b.temperature = q) ∧
    (req.temperature = none ∨ req.temperature = some 0 → b.temperature = 0.6) ∧
    (∀ q : ℚ, req.max_tokens = some q → q ≠ 0 → b.max_tokens = q) ∧
    (req.max_tokens = none ∨ req.max_tokens = some 0 → b.max_tokens = 2048) ∧
    b.stream = true := by
  unfold handleChatRequest at hok
  by_cases hmsg : messagesInvalid req.messages
  · simp [hmsg] at hok
  · simp only [hmsg, Bool.false_eq_true, if_false] at hok
    injection hok with hok
    subst hok
    refine ⟨fun q hq hq0 => ?_, fun hq => ?_, fun q hq hq0 => ?_,
      fun hq => ?_, rfl⟩
    · simp [jsOrNum, hq, hq0]
    · rcases hq with hq | hq <;> simp [jsOrNum, hq]
    · simp [jsOrNum, hq, hq0]
    · rcases hq with hq | hq <;> simp [jsOrNum, hq]

theorem translation_defaults_witness :
    (handleChatRequest reqW []).1 = .ok bW ∧
    bW.temperature = 2 ∧ bW.max_tokens = 2048 ∧ bW.stream = true := by
  have h2 : (2 : ℚ) ≠ 0 := by norm_num
  have hok : (handleChatRequest reqW []).1 = .ok bW := by
    unfold handleChatRequest reqW
    rw [show messagesInvalid (some (.jarr [.jobj []])) = false from rfl]
    simp only [Bool.false_eq_true, if_false]
    rw [show getOptimalModel (jsOrStr (some "gpt-4o") "gpt-4o") []
        = ("deepseek-ai/deepseek-v3.1", []) by decide]
    simp [jsOrNum, h2, bW, FORCE_STREAMING]
  have h := translation_defaults reqW [] bW hok
  exact ⟨hok, h.1 2 rfl h2, h.2.2.2.1 (Or.inl rfl), h.2.2.2.2⟩

/-! ## C2: stripping of the raw reasoning field -/

/-- C2 counterexample: the transcoder rewrites only `choices[0].delta`,
so an event whose *second* choice's delta carries `reasoning_content`
reaches the caller with that raw field intact, in pass-through mode and
in merge mode alike; additionally, in merge mode a first-choice delta
whose `reasoning_content` is the (falsy) empty string is forwarded with
the field intact, because `combinedContent` stays empty and the
`delete` is skipped. -/
theorem reasoning_leak_counterexample :
    noRawReasoning (processEvent false false leakEvent).2 = false ∧
    noRawReasoning (processEvent true false leakEvent).2 = false ∧
    noRawReasoning
      (processEvent true false ⟨[⟨some ⟨none, some ""⟩⟩]⟩).2 = false := by
  refine ⟨rfl, rfl, rfl⟩

/-- In merge mode, when a delta carries a truthy reasoning or content
fragment, `combinedContent` is nonempty, so the rewritten delta has its
`reasoning_content` deleted. -/
theorem processDeltaMerge_strips (st : Bool) (d : Delta)
    (h : (truthyStr d.reasoning_content || truthyStr d.content) = true) :
    (processDeltaMerge st d).2.reasoning_content = none := by
  obtain ⟨c, r⟩ := d
  cases r with
  | none =>
    cases c with
    | none => simp [truthyStr] at h
    | some cv =>
      have hcv : cv ≠ "" := by simpa [truthyStr] using h
      have hm2 : ("</think>\n\n" : String) ++ cv ≠ "" :=
        str_append_ne_empty_left _ _ (by decide)
      cases st <;> simp [processDeltaMerge, truthyStr, hcv, hm2]
  | some rv =>
    by_cases hrv : rv = ""
    · subst hrv
      have hc : truthyStr c = true := by simpa [truthyStr] using h
      cases c with
      | none => simp [truthyStr] at hc
      | some cv =>
        have hcv : cv ≠ "" := by simpa [truthyStr] using hc
        have hm2 : ("</think>\n\n" : String) ++ cv ≠ "" :=
          str_append_ne_empty_left _ _ (by decide)
        cases st <;> simp [processDeltaMerge, truthyStr, hcv, hm2]
    · cases st with
      | false =>
        have h1 : ("<think>\n" : String) ++ rv ≠ "" :=
          str_append_ne_empty_left _ _ (by decide)
        cases c with
        | none => simp [processDeltaMerge, truthyStr, hrv, h1]
        | some cv =>
          by_cases hcv : cv = ""
          · subst hcv; simp [processDeltaMerge, truthyStr, hrv, h1]
          · have h2 : ("<think>\n" : String) ++ rv ++ "</think>\n\n" ++ cv ≠ "" :=
              str_append_ne_empty_left _ _ (str_append_ne_empty_left _ _ h1)
            simp [processDeltaMerge, truthyStr, hrv, hcv, h1, h2]
      | true =>
        cases c with
        | none => simp [processDeltaMerge, truthyStr, hrv]
        | some cv =>
          by_cases hcv : cv = ""
          · subst hcv; simp [processDeltaMerge, truthyStr, hrv]
          · have h2 : rv ++ "</think>\n\n" ++ cv ≠ "" :=
              str_append_ne_empty_left _ _ (str_append_ne_empty_left _ _ hrv)
            simp [processDeltaMerge, truthyStr, hrv, hcv, h2]

/-- C2 (amended): the reasoning field is stripped from the *first*
choice's delta: in pass-through mode always, and in merge mode whenever
the delta carries a truthy (nonempty) reasoning or content fragment; the
deltas of all other choices are forwarded unmodified (and may therefore
still carry a raw reasoning field). -/
theorem first_choice_reasoning_stripped (m st : Bool) (e : Event)
    (ch : Choice) (rest : List Choice) (d : Delta)
    (hch : e.choices = ch :: rest) (hd : ch.delta = some d)
    (hm : m = true →
      (truthyStr d.reasoning_content || truthyStr d.content) = true) :
    (∃ d', ((processEvent m st e).2.choices.head?.bind Choice.delta)
        = some d' ∧ d'.reasoning_content = none) ∧
    (processEvent m st e).2.choices.tail = rest := by
  obtain ⟨chs⟩ := e
  have hchs : chs = ch :: rest := hch
  subst hchs
  cases m with
  | false =>
    simp only [processEvent, hd]
    exact ⟨⟨processDeltaPass d, rfl, rfl⟩, rfl⟩
  | true =>
    rcases hpd : processDeltaMerge st d with ⟨st2, d2⟩
    have hstrip : d2.reasoning_content = none := by
      have := processDeltaMerge_strips st d (hm rfl)
      rw [hpd] at this
      exact this
    simp only [processEvent, hd, if_true, hpd]
    exact ⟨⟨d2, rfl, hstrip⟩, rfl⟩

theorem first_choice_reasoning_stripped_witness :
    (∃ d', ((processEvent true false
        ⟨[⟨some ⟨some "visible", some "thought"⟩⟩]⟩).2.choices.head?.bind
          Choice.delta) = some d' ∧ d'.reasoning_content = none) ∧
    (processEvent true false
        ⟨[⟨some ⟨some "visible", some "thought"⟩⟩]⟩).2.choices.tail = [] :=
  first_choice_reasoning_stripped true false
    ⟨[⟨some ⟨some "visible", some "thought"⟩⟩]⟩
    ⟨some ⟨some "visible", some "thought"⟩⟩ [] ⟨some "visible", some "thought"⟩
    rfl rfl (fun _ => by decide)

/-! ## C5: parse failure is non-fatal pass-through -/

/-- C5: a `data: ` line (not containing `[DONE]`) whose payload fails
JSON parsing is written back to the caller as the original line bytes
plus the newline the line splitter removed, the merge state is left
unchanged, no error terminates processing, and the remaining lines of
the stream are processed exactly as they would have been without the
malformed line. -/
theorem parse_failure_passthrough (parse : String → Option Event)
    (stringify : Event → String) (m st : Bool) (line : String)
    (rest : List String)
    (hdata : strStartsWith line "data: " = true)
    (hdone : jsIncludes line "[DONE]" = false)
    (hparse : parse (strDrop line 6) = none) :
    processLine parse stringify m st line = (st, [line ++ "\n"]) ∧
    processLines parse stringify m st (line :: rest)
      = ((processLines parse stringify m st rest).1,
         (line ++ "\n") :: (processLines parse stringify m st rest).2) := by
  have h1 : processLine parse stringify m st line = (st, [line ++ "\n"]) := by
    unfold processLine
    rw [hdata, hdone, hparse]
    rfl
  refine ⟨h1, ?_⟩
  simp only [processLines]
  rw [h1]
  rcases hp : processLines parse stringify m st rest with ⟨st3, outs⟩
  simp

theorem parse_failure_passthrough_witness :
    processLine (fun _ => none) (fun _ => "") false false "data: not json"
      = (false, ["data: not json\n"]) :=
  (parse_failure_passthrough (fun _ => none) (fun _ => "") false false
    "data: not json" [] (by decide) (by decide) rfl).1

/-! ## C9: the [DONE] substring short-circuit -/

/-- C9: any `data: ` line containing the substring `[DONE]` anywhere is
written back verbatim (plus the event-stream blank line) without being
parsed or transcoded — the result is the same for every parse function,
including ones that would parse it successfully — and the merge state is
unchanged; in particular a valid JSON event whose reasoning text contains
`[DONE]` reaches the caller with the raw `reasoning_content` bytes
intact. -/
theorem done_substring_bypass (parse : String → Option Event)
    (stringify : Event → String) (m st : Bool) (line : String)
    (hdata : strStartsWith line "data: " = true)
    (hdone : jsIncludes line "[DONE]" = true) :
    processLine parse stringify m st line = (st, [line ++ "\n\n"]) ∧
    (processLine parse stringify m st doneLeakLine
        = (st, [doneLeakLine ++ "\n\n"]) ∧
      jsIncludes doneLeakLine "reasoning_content" = true ∧
      jsIncludes doneLeakLine "[DONE]" = true) := by
  constructor
  · unfold processLine
    rw [hdata, hdone]
    rfl
  · refine ⟨?_, by decide, by decide⟩
    unfold processLine
    rw [show strStartsWith doneLeakLine "data: " = true by decide,
      show jsIncludes doneLeakLine "[DONE]" = true by decide]
    rfl

theorem done_substring_bypass_witness :
    processLine (fun _ => some ⟨[]⟩) (fun _ => "") false false doneLeakLine
      = (false, [doneLeakLine ++ "\n\n"]) :=
  (done_substring_bypass (fun _ => some ⟨[]⟩) (fun _ => "") false false
    doneLeakLine (by decide) (by decide)).2.1

/-! ## C8: non-streaming assembly of the reasoning field -/

/-- C8 counterexample: the non-streaming assembler does *not* use the
streaming close marker `"</think>\n\n"` verbatim — it inserts an extra
newline after the reasoning (`'<think>\n' + r + '\n</think>\n\n' + c`,
server.js line 258), so for reasoning `"r"` and content `"c"` the
assembled content differs from the string the claim predicts; moreover a
message whose reasoning field is the (falsy) empty string is not
prefixed at all. -/
theorem assemble_marker_counterexample :
    assembleContent true ⟨"assistant", some "c", some "r"⟩
        ≠ "<think>\n" ++ "r" ++ "</think>\n\n" ++ "c" ∧
    assembleContent true ⟨"assistant", some "c", some "r"⟩
        = "<think>\nr\n</think>\n\nc" ∧
    assembleContent true ⟨"assistant", some "c", some ""⟩
        ≠ "<think>\n" ++ "" ++ "</think>\n\n" ++ "c" ∧
    assembleContent true ⟨"assistant", some "c", some ""⟩ = "c" := by
  refine ⟨by decide, by decide, by decide, by decide⟩

/-- C8 (amended): on the non-streaming path with merge mode enabled, a
choice whose message carries a truthy (nonempty) reasoning field has that
reasoning prefixed to the visible content once per message, using the
streaming open marker `"<think>\n"` but closing with an extra newline
before the streaming close marker — `reasoning ++ "\n" ++ "</think>\n\n"`
— followed by the content the pass-through assembly would produce. -/
theorem assemble_reasoning_prefixed (msg : RespMessage) (r : String)
    (hr : msg.reasoning_content = some r) (hne : r ≠ "") :
    assembleContent true msg
      = "<think>\n" ++ r ++ "\n" ++ "</think>\n\n" ++ assembleContent false msg := by
  unfold assembleContent
  rw [hr]
  simp [truthyStr, hne, SHOW_REASONING]
  rw [show ("\n</think>\n\n" : String) = "\n" ++ "</think>\n\n" from by decide]
  simp [String.append_assoc]

theorem assemble_reasoning_prefixed_witness :
    assembleContent true ⟨"assistant", some "c", some "r"⟩
      = "<think>\n" ++ "r" ++ "\n" ++ "</think>\n\n"
        ++ assembleContent false ⟨"assistant", some "c", some "r"⟩ :=
  assemble_reasoning_prefixed ⟨"assistant", some "c", some "r"⟩ "r" rfl
    (by decide)

/-! ## C1: the merge-mode open/close marker state machine -/

theorem mergeConcat_contents (cs : List String) (h : ∀ s ∈ cs, s ≠ "") :
    mergeConcat false (cs.map cDelta) = concatList cs := by
  induction cs with
  | nil => rfl
  | cons c cs ih =>
    have hc : c ≠ "" := h c (List.mem_cons_self c cs)
    have ih' := ih fun s hs => h s (List.mem_cons_of_mem c hs)
    simp [mergeConcat, processDeltaMerge, truthyStr, cDelta, hc, ih', concatList]

theorem mergeConcat_reasonings (rs : List String) (l : List Delta)
    (h : ∀ s ∈ rs, s ≠ "") :
    mergeConcat true (rs.map rDelta ++ l)
      = concatList rs ++ mergeConcat true l := by
  induction rs with
  | nil => simp [concatList]
  | cons r rs ih =>
    have hr : r ≠ "" := h r (List.mem_cons_self r rs)
    have ih' := ih fun s hs => h s (List.mem_cons_of_mem r hs)
    simp [mergeConcat, processDeltaMerge, truthyStr, rDelta, hr, ih',
      concatList, String.append_assoc]

theorem mergeConcat_close (c : String) (cs : List String) (hc : c ≠ "")
    (hcs : ∀ s ∈ cs, s ≠ "") :
    mergeConcat true (cDelta c :: cs.map cDelta)
      = ("</think>\n\n" ++ c) ++ concatList cs := by
  have h1 := mergeConcat_contents cs hcs
  have hne : ("</think>\n\n" : String) ++ c ≠ "" :=
    str_append_ne_empty_left _ _ (by decide)
  simp [mergeConcat, processDeltaMerge, truthyStr, cDelta, hc, hne, h1]

/-- C1 counterexample: the opening marker is *not* emitted exactly once
for every delta sequence — when a reasoning fragment arrives after the
reasoning block was closed by a visible fragment, `reasoningStarted` is
false again and the code emits a second opening marker: the sequence
[reasoning "a", content "b", reasoning "x"] emits `"<think>\n"` twice. -/
theorem merge_reopen_counterexample :
    countSubStr (mergeConcat false [rDelta "a", cDelta "b", rDelta "x"])
        "<think>\n" = 2 ∧
    (2 : Nat) ≠ 1 ∧
    mergeConcat false [rDelta "a", cDelta "b", rDelta "x"]
      = "<think>\na" ++ "</think>\n\nb" ++ "<think>\nx" := by
  refine ⟨by decide, by decide, by decide⟩

/-- C1 (amended): in merge mode, for every stream of choice deltas consisting of a
nonempty run of (nonempty) reasoning fragments followed by a nonempty run
of (nonempty) visible-content fragments, the concatenation of the emitted
content is: the opening marker `"<think>\n"` exactly once, immediately
before the first reasoning fragment; the remaining reasoning fragments
with no further marker; the closing marker `"</think>\n\n"` exactly
once, immediately before the first visible fragment; then the remaining
visible fragments — in particular
[reasoning "a", reasoning "b", content "c", content "d"] emits
`<think>\na`, `b`, `</think>\n\nc`, `d` in that order. -/
theorem merge_open_close_ordering (rs cs : List String)
    (hrs : rs ≠ []) (hcs : cs ≠ [])
    (hrne : ∀ s ∈ rs, s ≠ "") (hcne : ∀ s ∈ cs, s ≠ "") :
    mergeConcat false (rs.map rDelta ++ cs.map cDelta)
      = "<think>\n" ++ concatList rs ++ "</think>\n\n" ++ concatList cs := by
  obtain ⟨r, rs', rfl⟩ : ∃ r rs', rs = r :: rs' := by
    cases rs with
    | nil => exact absurd rfl hrs
    | cons r rs' => exact ⟨r, rs', rfl⟩
  obtain ⟨c, cs', rfl⟩ : ∃ c cs', cs = c :: cs' := by
    cases cs with
    | nil => exact absurd rfl hcs
    | cons c cs' => exact ⟨c, cs', rfl⟩
  have hr : r ≠ "" := hrne r (List.mem_cons_self r rs')
  have hrne' : ∀ s ∈ rs', s ≠ "" := fun s hs => hrne s (List.mem_cons_of_mem r hs)
  have hc : c ≠ "" := hcne c (List.mem_cons_self c cs')
  have hcne' : ∀ s ∈ cs', s ≠ "" := fun s hs => hcne s (List.mem_cons_of_mem c hs)
  have hopen : ("<think>\n" : String) ++ r ≠ "" :=
    str_append_ne_empty_left _ _ (by decide)
  have h2 := mergeConcat_reasonings rs' (cDelta c :: cs'.map cDelta) hrne'
  have h3 := mergeConcat_close c cs' hc hcne'
  simp only [List.map_cons, List.cons_append]
  have hstep : mergeConcat false
      (rDelta r :: (List.map rDelta rs' ++ (cDelta c :: List.map cDelta cs')))
      = ("<think>\n" ++ r)
        ++ mergeConcat true
          (List.map rDelta rs' ++ (cDelta c :: List.map cDelta cs')) := by
    simp [mergeConcat, processDeltaMerge, truthyStr, rDelta, hr, hopen]
  rw [hstep, h2, h3]
  simp [concatList, String.append_assoc]
theorem merge_open_close_ordering_witness :
    mergeConcat false [rDelta "a", rDelta "b", cDelta "c", cDelta "d"]
      = "<think>\nab</think>\n\ncd" :=
  (merge_open_close_ordering ["a", "b"] ["c", "d"] (by decide) (by decide)
    (by decide) (by decide)).trans (by decide)

end NimProxy
